import Mathlib

set_option maxRecDepth 4000

/-!
Verification of the vhost lifecycle orchestration subsystem
(repository `ksyq12/vhost`), as a shallow embedding in Lean 4.

The embedding covers:
  * the CLI input validators of `internal/cli/common.go`
    (`validateDomain`, `validateRoot`, `validateProxyURL`,
    `containsPathTraversal`, `containsShellMetaChars`, `containsNullByte`,
    `isValidDomainFormat` and the RFC 1035 `domainPattern` regex);
  * the nginx backend driver of `internal/driver/nginx.go`
    (`Add`, `Remove`, `Enable`, `Disable`, `List`, `IsEnabled`, `Test`,
    `Reload`) over an explicit model of the two driver directories;
  * the lifecycle workflows `runAdd` (internal/cli/add.go),
    `runEnable` (internal/cli/enable.go), `runDisable` (disable command),
    `runRemove` (internal/cli/remove.go) and the shared helper
    `testAndReload` (internal/cli/common.go), instrumented with a trace of
    the driver calls they issue.

External boundaries (the process executor for `nginx -t` /
`systemctl reload nginx` / `nginx -s reload`, the template renderer, the
root-privilege check, stdin confirmation, the current time) are modelled
as explicit oracle inputs; filesystem primitives are modelled as total
operations on the directory state (I/O failures such as EPERM are outside
the model, the explicit precondition failures of the Go code are kept).
-/

namespace Vhost

/-! ## Character classes and list-of-char utilities -/

/-- ASCII `[a-zA-Z0-9]`, the character class of the Go regex
`domainPattern` in `internal/cli/common.go`. -/
def isAlnumA (c : Char) : Bool :=
  (decide ('a' ≤ c) && decide (c ≤ 'z')) ||
  (decide ('A' ≤ c) && decide (c ≤ 'Z')) ||
  (decide ('0' ≤ c) && decide (c ≤ '9'))

/-- `isPrefixL n h` decides whether `n` is an initial segment of `h`
(Go `strings.HasPrefix` on rune lists). -/
def isPrefixL : List Char → List Char → Bool
  | [], _ => true
  | _ :: _, [] => false
  | a :: as, b :: bs => a = b && isPrefixL as bs

/-- `containsSub n h` decides whether `n` occurs contiguously in `h`
(Go `strings.Contains` on rune lists). -/
def containsSub (needle : List Char) : List Char → Bool
  | [] => isPrefixL needle []
  | c :: rest => isPrefixL needle (c :: rest) || containsSub needle rest

/-- Splitting a character list at every occurrence of `sep`
(Go `strings.Split`); always returns at least one (possibly empty) group. -/
def splitOnC (sep : Char) : List Char → List (List Char)
  | [] => [[]]
  | c :: rest =>
    match splitOnC sep rest with
    | [] => if c = sep then [[], []] else [[c]]
    | g :: gs => if c = sep then [] :: g :: gs else (c :: g) :: gs

/-- ASCII whitespace, modelling the characters `strings.TrimSpace` strips
for the inputs reachable here. Non-ASCII whitespace is rejected by the
`domainPattern` check anyway, so the set of accepted domains is unchanged. -/
def isSpaceA (c : Char) : Bool :=
  c = ' ' || c = '\t' || c = '\n' || c = Char.ofNat 11 || c = Char.ofNat 12 || c = '\r'

/-! ## Security validation helpers (internal/cli/common.go) -/

/-- Embeds `containsPathTraversal` (common.go): substring check for
`../`, `..\`, `./`, `.\`. -/
def containsPathTraversal (s : List Char) : Bool :=
  containsSub ['.', '.', '/'] s || containsSub ['.', '.', '\\'] s ||
  containsSub ['.', '/'] s || containsSub ['.', '\\'] s

/-- Embeds `containsNullByte` (common.go). -/
def containsNullByte (s : List Char) : Bool :=
  s.contains (Char.ofNat 0)

/-- The shell metacharacter list of `containsShellMetaChars` (common.go):
semicolon, pipe, ampersand, dollar, backquote (written `Char.ofNat 96`),
angle brackets, newline, carriage return. -/
def shellMetaChars : List Char :=
  [';', '|', '&', '$', Char.ofNat 96, '<', '>', '\n', '\r']

/-- Embeds `containsShellMetaChars` (common.go). -/
def containsShellMetaChars (s : List Char) : Bool :=
  s.any (fun c => shellMetaChars.contains c)

/-- `maxDomainLength` constant of common.go (RFC 1035). -/
def maxDomainLength : Nat := 253

/-- Tail of an RFC 1035 label after its first character: the regex part
`([a-zA-Z0-9-]{0,61}[a-zA-Z0-9])?` — every character alphanumeric or
hyphen, the last one alphanumeric (the length bound is imposed in
`labelOK`). -/
def labelTail : List Char → Bool
  | [] => true
  | [c] => isAlnumA c
  | c :: rest => (isAlnumA c || c = '-') && labelTail rest

/-- One label of the `domainPattern` regex
`[a-zA-Z0-9]([a-zA-Z0-9-]{0,61}[a-zA-Z0-9])?`: nonempty, at most 63
characters, first and last characters alphanumeric, interior characters
alphanumeric or hyphen. -/
def labelOK : List Char → Bool
  | [] => false
  | [c] => isAlnumA c
  | c :: rest => isAlnumA c && decide (rest.length ≤ 62) && labelTail rest

/-- Semantics of the anchored regex
`^(label\.)*label$` (`domainPattern` in common.go): the string is a
dot-separated sequence of matching labels.  Splitting on `'.'` recovers
exactly those labels, so the match holds iff every group of the split is a
valid label. -/
def domainPatternMatch (s : List Char) : Bool :=
  (splitOnC '.' s).all labelOK

/-- Embeds `isValidDomainFormat` (common.go).  Go measures `len(domain)`
in bytes; every string accepted here is pure ASCII (any multi-byte rune
fails `domainPatternMatch`), so the character count coincides with the
byte count on the accepted set. -/
def isValidDomainFormat (s : List Char) : Bool :=
  decide (0 < s.length) && decide (s.length ≤ maxDomainLength) && domainPatternMatch s

/-- Embeds `validateDomain` (common.go), preserving the order of the
checks; returns `some errorMessage` exactly when the Go function returns a
non-nil error.  The `strings.TrimSpace` comparison is equivalent to
checking whether the first or last character is whitespace. -/
def validateDomain (domain : String) : Option String :=
  let s := domain.toList
  if s.isEmpty then some "domain cannot be empty"
  else if s.head?.elim false isSpaceA || s.getLast?.elim false isSpaceA then
    some "domain cannot contain leading or trailing whitespace"
  else if s.contains ' ' then some "domain cannot contain spaces"
  else if decide (maxDomainLength < s.length) then
    some "domain exceeds maximum length of 253 characters"
  else if containsPathTraversal s then
    some "domain contains invalid path traversal sequences"
  else if containsShellMetaChars s then
    some "domain contains invalid shell metacharacters"
  else if containsNullByte s then some "domain contains null byte"
  else if s.head?.elim false (fun c => c = '-') || s.getLast?.elim false (fun c => c = '-') then
    some "domain cannot start or end with hyphen"
  else if ! isValidDomainFormat s then
    some "invalid domain format: must contain only letters, numbers, hyphens, and dots"
  else none

/-- Fixed point of `filepath.Clean` for absolute paths: an absolute path
is unchanged by `Clean` iff it is `/` or its components are all nonempty
and none is `.` or `..` (no `//`, no trailing slash).  This embeds the
`filepath.Clean(root) == root` canonicality check of `validateRoot`. -/
def cleanAbs (s : List Char) : Bool :=
  match splitOnC '/' s with
  | [] => false
  | _ :: comps =>
    comps = [[]] ||
      (! comps.isEmpty && comps.all (fun g => ! g.isEmpty && g ≠ ['.'] && g ≠ ['.', '.']))

/-- Embeds `validateRoot` (common.go).  The final error message of the Go
code interpolates the cleaned path; the model keeps a fixed message (no
claim depends on that message text). -/
def validateRoot (root : String) : Option String :=
  let s := root.toList
  if s.isEmpty then none
  else if ! s.head?.elim false (fun c => c = '/') then
    some ("root path must be absolute: " ++ root)
  else if containsPathTraversal s then
    some ("root path contains invalid traversal sequences: " ++ root)
  else if containsNullByte s then some "root path contains null byte"
  else if ! cleanAbs s then some "root path contains invalid sequences"
  else none

/-- Modelled boundary of Go `net/url.Parse`: for the inputs reachable from
`validateProxyURL` it fails exactly on ASCII control characters in the URL
(`net/url: invalid control character in URL`). -/
def urlParseOk (s : List Char) : Bool :=
  s.all (fun c => decide (32 ≤ c.toNat) && decide (c.toNat ≠ 127))

/-- Embeds `validateProxyURL` (common.go): empty is accepted, a scheme
`http://` is prepended when no `://` occurs, then the URL is parsed. -/
def validateProxyURL (proxyURL : String) : Option String :=
  if proxyURL = "" then none
  else
    let full := if containsSub "://".toList proxyURL.toList then proxyURL
                else "http://" ++ proxyURL
    if urlParseOk full.toList then none else some "invalid proxy URL"

/-! ## VHost data model (internal/config) -/

/-- Embeds `config.VHost` (internal/config).  The Go field `Type` is
rendered `Typ` (`Type` is a Lean keyword); `CreatedAt` is an abstract
timestamp; the `Extra` map is never touched by the modelled code paths and
is omitted. -/
structure VHost where
  Domain : String
  Typ : String
  Root : String
  ProxyPass : String
  PHPVersion : String
  SSL : Bool
  SSLCert : String
  SSLKey : String
  Enabled : Bool
  CreatedAt : Nat
deriving Repr, DecidableEq

/-- `config.ValidTypes`. -/
def validTypes : List String := ["static", "php", "proxy", "laravel", "wordpress"]

/-- Embeds `config.IsValidType`. -/
def IsValidType (t : String) : Bool := validTypes.contains t

/-! ## Filesystem model for the nginx driver directories -/

/-- A directory entry: a regular file with its byte content, a symbolic
link (the target is recorded as the domain name it points to under
`sites-available`), or a subdirectory. -/
inductive Entry where
  | file (content : String)
  | symlink (target : String)
  | dir
deriving Repr, DecidableEq

/-- Association-list lookup keyed by file name (generic over the value). -/
def lookupA {β : Type} : List (String × β) → String → Option β
  | [], _ => none
  | (k, v) :: rest, d => if k = d then some v else lookupA rest d

/-- Association-list overwrite-or-append (Go `os.WriteFile` semantics:
an existing entry is replaced, never duplicated). -/
def insertA {β : Type} : List (String × β) → String → β → List (String × β)
  | [], d, v => [(d, v)]
  | (k, v0) :: rest, d, v =>
    if k = d then (d, v) :: rest else (k, v0) :: insertA rest d v

/-- Association-list removal (Go `os.Remove` / `delete`). -/
def removeA {β : Type} : List (String × β) → String → List (String × β)
  | [], _ => []
  | (k, v) :: rest, d =>
    if k = d then removeA rest d else (k, v) :: removeA rest d

/-- The filesystem state visible to the nginx driver: the
`sites-available` directory, the `sites-enabled` directory, and the set of
document-root directories created via `os.MkdirAll`.  The two driver
directories themselves always exist in the model (`MkdirAll` on them never
fails). -/
structure FS where
  availD : List (String × Entry)
  enabledD : List (String × Entry)
  dirs : List String
deriving Repr, DecidableEq

/-! ## External-process oracle -/

/-- Outcome oracle for the external commands the nginx driver runs:
`nginx -t` (validate) and the two reload commands
`systemctl reload nginx` / `nginx -s reload`, each with its combined
stdout+stderr text. -/
structure Exec where
  testOk : Bool
  testOut : String
  systemctlOk : Bool
  systemctlOut : String
  nginxSOk : Bool
  nginxSOut : String
deriving Repr, DecidableEq

/-- The reload commands, in the order `NginxDriver.Reload` attempts them. -/
inductive RCmd where
  | systemctlReload
  | nginxSReload
deriving Repr, DecidableEq

/-! ## Nginx driver operations (internal/driver/nginx.go) -/

/-- Embeds `NginxDriver.Add`: write (overwrite) the config file under
`sites-available`, and create the document root when `Root` is set.  The
Go code performs no existence check on the config file. -/
def nginxAdd (fs : FS) (v : VHost) (content : String) : FS :=
  let fs1 := { fs with availD := insertA fs.availD v.Domain (Entry.file content) }
  if v.Root = "" then fs1
  else if fs1.dirs.contains v.Root then fs1
  else { fs1 with dirs := v.Root :: fs1.dirs }

/-- Embeds `NginxDriver.Enable`: fails when the source config is absent or
when the activation path already holds any entry; otherwise creates the
symlink. -/
def nginxEnable (fs : FS) (d : String) : FS × Option String :=
  match lookupA fs.availD d with
  | none => (fs, some ("vhost " ++ d ++ " not found in sites-available"))
  | some _ =>
    match lookupA fs.enabledD d with
    | some _ => (fs, some ("vhost " ++ d ++ " is already enabled"))
    | none => ({ fs with enabledD := insertA fs.enabledD d (Entry.symlink d) }, none)

/-- Embeds `NginxDriver.Disable`: fails when no entry exists at the
activation path, refuses (without deleting) when the entry is not a
symbolic link (`info.Mode()&os.ModeSymlink == 0`), otherwise removes the
symlink. -/
def nginxDisable (fs : FS) (d : String) : FS × Option String :=
  match lookupA fs.enabledD d with
  | none => (fs, some ("vhost " ++ d ++ " is not enabled"))
  | some (Entry.symlink _) => ({ fs with enabledD := removeA fs.enabledD d }, none)
  | some _ => (fs, some ("vhost " ++ d ++ " is not a symlink, refusing to remove"))

/-- Embeds `NginxDriver.IsEnabled`: `os.Lstat` existence check on the
activation path. -/
def nginxIsEnabled (fs : FS) (d : String) : Bool :=
  (lookupA fs.enabledD d).isSome

/-- Embeds `NginxDriver.Remove`: first disables when currently enabled
(propagating a `Disable` failure), then removes the file from
`sites-available`, reporting `vhost <d> not found` when absent. -/
def nginxRemove (fs : FS) (d : String) : FS × Option String :=
  match (if nginxIsEnabled fs d then nginxDisable fs d else (fs, none)) with
  | (fs1, some m) => (fs1, some m)
  | (fs1, none) =>
    match lookupA fs1.availD d with
    | none => (fs1, some ("vhost " ++ d ++ " not found"))
    | some _ => ({ fs1 with availD := removeA fs1.availD d }, none)

/-- Whether a directory entry name is hidden (`strings.HasPrefix(name, ".")`). -/
def hiddenName (n : String) : Bool :=
  n.toList.head?.elim false (fun c => c = '.')

/-- Embeds `NginxDriver.List`: names of the non-directory, non-hidden
entries of `sites-available` (empty when the directory is missing, which
the model represents as the empty directory). -/
def nginxList (fs : FS) : List String :=
  (fs.availD.filter
    (fun p => (match p.2 with | Entry.dir => false | _ => true) && ! hiddenName p.1)).map
    Prod.fst

/-- Embeds `NginxDriver.Test`: runs `nginx -t`; on failure the error
carries the tool's combined output. -/
def nginxTest (e : Exec) : Option String :=
  if e.testOk then none else some ("nginx config test failed: " ++ e.testOut)

/-- Embeds `NginxDriver.Reload`: attempts `systemctl reload nginx`; only
on failure attempts the single fallback `nginx -s reload`; when both fail
the error message is built from the `output` variable, which at that point
holds the fallback attempt's output (the primary attempt's output was
overwritten).  Returns the list of commands attempted together with the
result. -/
def nginxReload (e : Exec) : List RCmd × Option String :=
  if e.systemctlOk then ([RCmd.systemctlReload], none)
  else if e.nginxSOk then ([RCmd.systemctlReload, RCmd.nginxSReload], none)
  else ([RCmd.systemctlReload, RCmd.nginxSReload],
        some ("failed to reload nginx: " ++ e.nginxSOut))

/-! ## Registry and workflow plumbing (internal/cli) -/

/-- The tracked-vhost registry held in `config.Config`: the vhost map plus
the `DefaultPHP` global used by `runAdd`'s PHP-version defaulting. -/
structure Registry where
  defaultPHP : String
  vhosts : List (String × VHost)
deriving Repr, DecidableEq

/-- One driver-interface call issued by a workflow: `drv.Add`,
`drv.Enable`, `drv.Disable`, `drv.Remove`, `drv.Test` (with its outcome)
or `drv.Reload`. -/
inductive Ev where
  | add (d : String)
  | enable (d : String)
  | disable (d : String)
  | remove (d : String)
  | test (ok : Bool)
  | reload
deriving Repr, DecidableEq

/-- Result of the template renderer `template.Render` (treated as an
oracle: the template text is an embedded asset and the substitution engine
is Go's `text/template`). -/
inductive RenderRes where
  | ok (content : String)
  | fail (msg : String)
deriving Repr, DecidableEq

/-- Outcome of one workflow run: final filesystem, final registry, the
trace of driver calls issued, and the error returned to the CLI
(`none` = overall success). -/
structure WfOut where
  fs : FS
  reg : Registry
  tr : List Ev
  err : Option String
deriving Repr, DecidableEq

/-- Embeds `testAndReload` (internal/cli/common.go): run `drv.Test`; on
failure run the rollback closure when provided (a rollback failure is only
warned about) and report `configuration test failed: ...`; on success run
`drv.Reload` unless reloading was opted out, wrapping a reload failure as
`failed to reload nginx: ...`. -/
def testAndReload (e : Exec) (reload : Bool) (rollback : Option (FS → FS × List Ev))
    (fs : FS) : FS × List Ev × Option String :=
  match nginxTest e with
  | some msg =>
    match rollback with
    | none => (fs, [Ev.test false], some ("configuration test failed: " ++ msg))
    | some rb =>
      ((rb fs).1, Ev.test false :: (rb fs).2, some ("configuration test failed: " ++ msg))
  | none =>
    if reload then
      match (nginxReload e).2 with
      | some msg => (fs, [Ev.test true, Ev.reload], some ("failed to reload nginx: " ++ msg))
      | none => (fs, [Ev.test true, Ev.reload], none)
    else (fs, [Ev.test true], none)

/-- The flag set of the `add` command (internal/cli/add.go). -/
structure AddOpts where
  vhostType : String
  vhostRoot : String
  proxyPass : String
  phpVersion : String
  withSSL : Bool
  noReload : Bool
deriving Repr, DecidableEq

/-- Embeds `validateAddOptions` (internal/cli/add.go): root-based types
require `--root` (validated by `validateRoot`), the proxy type requires
`--proxy` (validated by `validateProxyURL`); no other cross-field
constraint is imposed. -/
def validateAddOptions (o : AddOpts) : Option String :=
  if o.vhostType = "static" || o.vhostType = "php" || o.vhostType = "laravel" ||
     o.vhostType = "wordpress" then
    if o.vhostRoot = "" then some ("--root is required for type " ++ o.vhostType)
    else validateRoot o.vhostRoot
  else if o.vhostType = "proxy" then
    if o.proxyPass = "" then some "--proxy is required for type proxy"
    else validateProxyURL o.proxyPass
  else none

/-- The `VHost` record `runAdd` constructs from its validated inputs,
including the `DefaultPHP` fallback for the PHP-requiring types. -/
def mkVHost (domain : String) (o : AddOpts) (defaultPHP : String) (now : Nat) : VHost :=
  let v : VHost :=
    { Domain := domain, Typ := o.vhostType, Root := o.vhostRoot,
      ProxyPass := o.proxyPass, PHPVersion := o.phpVersion, SSL := o.withSSL,
      SSLCert := "", SSLKey := "", Enabled := true, CreatedAt := now }
  if v.PHPVersion = "" && (v.Typ = "php" || v.Typ = "laravel" || v.Typ = "wordpress") then
    { v with PHPVersion := defaultPHP }
  else v

/-- Embeds `runAdd` (internal/cli/add.go) over the nginx driver:
validate domain, type and options; reject a domain already tracked in the
registry; construct the vhost and render its config; handle dry-run and
the root-privilege requirement; then `drv.Add`, `drv.Enable` (rolling back
with `drv.Remove` on failure), `testAndReload` with the
Disable-then-Remove rollback, and finally persist the registry entry
(a save failure is only a warning, so the in-memory update decides the
final registry). -/
def runAdd (domain : String) (o : AddOpts) (dryRun isRoot : Bool)
    (render : VHost → RenderRes) (now : Nat) (reg : Registry) (fs : FS)
    (e : Exec) : WfOut :=
  match validateDomain domain with
  | some m => ⟨fs, reg, [], some m⟩
  | none =>
    if ! IsValidType o.vhostType then
      ⟨fs, reg, [], some ("invalid type: " ++ o.vhostType)⟩
    else
      match validateAddOptions o with
      | some m => ⟨fs, reg, [], some m⟩
      | none =>
        match lookupA reg.vhosts domain with
        | some _ => ⟨fs, reg, [], some ("vhost " ++ domain ++ " already exists")⟩
        | none =>
          match render (mkVHost domain o reg.defaultPHP now) with
          | RenderRes.fail m => ⟨fs, reg, [], some ("failed to render template: " ++ m)⟩
          | RenderRes.ok content =>
            if dryRun then ⟨fs, reg, [], none⟩
            else if ! isRoot then
              ⟨fs, reg, [], some "this operation requires root privileges. Please run with sudo"⟩
            else
              match nginxEnable (nginxAdd fs (mkVHost domain o reg.defaultPHP now) content)
                  domain with
              | (fs2, some m) =>
                ⟨(nginxRemove fs2 domain).1, reg,
                  [Ev.add domain, Ev.enable domain, Ev.remove domain],
                  some ("failed to enable vhost: " ++ m)⟩
              | (fs2, none) =>
                match testAndReload e (! o.noReload)
                    (some (fun f =>
                      ((nginxRemove (nginxDisable f domain).1 domain).1,
                       [Ev.disable domain, Ev.remove domain]))) fs2 with
                | (fs3, tr, some m) =>
                  ⟨fs3, reg, Ev.add domain :: Ev.enable domain :: tr, some m⟩
                | (fs3, tr, none) =>
                  ⟨fs3,
                    { reg with
                      vhosts := insertA reg.vhosts domain (mkVHost domain o reg.defaultPHP now) },
                    Ev.add domain :: Ev.enable domain :: tr, none⟩

/-- Embeds `runEnable` (internal/cli/enable.go) over the nginx driver:
validate the domain, handle dry-run and the root requirement, `drv.Enable`,
`testAndReload` with a Disable rollback, then set the registry entry's
`Enabled` flag when the domain is tracked. -/
def runEnable (domain : String) (noReload dryRun isRoot : Bool) (reg : Registry)
    (fs : FS) (e : Exec) : WfOut :=
  match validateDomain domain with
  | some m => ⟨fs, reg, [], some m⟩
  | none =>
    if dryRun then ⟨fs, reg, [], none⟩
    else if ! isRoot then
      ⟨fs, reg, [], some "this operation requires root privileges. Please run with sudo"⟩
    else
      match nginxEnable fs domain with
      | (fs1, some m) => ⟨fs1, reg, [Ev.enable domain], some ("failed to enable vhost: " ++ m)⟩
      | (fs1, none) =>
        match testAndReload e (! noReload)
            (some (fun f => ((nginxDisable f domain).1, [Ev.disable domain]))) fs1 with
        | (fs2, tr, some m) => ⟨fs2, reg, Ev.enable domain :: tr, some m⟩
        | (fs2, tr, none) =>
          match lookupA reg.vhosts domain with
          | some v =>
            ⟨fs2, { reg with vhosts := insertA reg.vhosts domain { v with Enabled := true } },
              Ev.enable domain :: tr, none⟩
          | none => ⟨fs2, reg, Ev.enable domain :: tr, none⟩

/-- Embeds `runDisable` (the disable command) over the nginx driver:
validate the domain, handle dry-run and the root requirement,
`drv.Disable` (a failure aborts), then best-effort `testAndReload` whose
failure is only warned about, then clear the registry entry's `Enabled`
flag when the domain is tracked.  The workflow reports success regardless
of the test/reload outcome. -/
def runDisable (domain : String) (noReload dryRun isRoot : Bool) (reg : Registry)
    (fs : FS) (e : Exec) : WfOut :=
  match validateDomain domain with
  | some m => ⟨fs, reg, [], some m⟩
  | none =>
    if dryRun then ⟨fs, reg, [], none⟩
    else if ! isRoot then
      ⟨fs, reg, [], some "this operation requires root privileges. Please run with sudo"⟩
    else
      match nginxDisable fs domain with
      | (fs1, some m) => ⟨fs1, reg, [Ev.disable domain], some ("failed to disable vhost: " ++ m)⟩
      | (fs1, none) =>
        match testAndReload e (! noReload) none fs1 with
        | (fs2, tr, _) =>
          match lookupA reg.vhosts domain with
          | some v =>
            ⟨fs2, { reg with vhosts := insertA reg.vhosts domain { v with Enabled := false } },
              Ev.disable domain :: tr, none⟩
          | none => ⟨fs2, reg, Ev.disable domain :: tr, none⟩

/-- Embeds `runRemove` (internal/cli/remove.go) over the nginx driver:
validate the domain, require root, prompt for confirmation unless forced
(`confirmYes` models a stdin answer normalising to `y`/`yes`),
`drv.Remove` (a failure aborts), then best-effort `testAndReload` whose
failure is only warned about, then delete the registry entry
unconditionally.  The workflow reports success regardless of the
test/reload outcome. -/
def runRemove (domain : String) (noReload force confirmYes isRoot : Bool)
    (reg : Registry) (fs : FS) (e : Exec) : WfOut :=
  match validateDomain domain with
  | some m => ⟨fs, reg, [], some m⟩
  | none =>
    if ! isRoot then
      ⟨fs, reg, [], some "this operation requires root privileges. Please run with sudo"⟩
    else if ! force && ! confirmYes then ⟨fs, reg, [], none⟩
    else
      match nginxRemove fs domain with
      | (fs1, some m) => ⟨fs1, reg, [Ev.remove domain], some ("failed to remove vhost: " ++ m)⟩
      | (fs1, none) =>
        match testAndReload e (! noReload) none fs1 with
        | (fs2, tr, _) =>
          ⟨fs2, { reg with vhosts := removeA reg.vhosts domain },
            Ev.remove domain :: tr, none⟩

/-- `reloadGuarded tr seen` holds when every `reload` event in `tr` is
preceded (in `tr`, or already before it when `seen` is set) by a
successful `test` event. -/
def reloadGuarded : List Ev → Bool → Bool
  | [], _ => true
  | Ev.reload :: rest, seen => seen && reloadGuarded rest seen
  | Ev.test ok :: rest, seen => reloadGuarded rest (seen || ok)
  | _ :: rest, seen => reloadGuarded rest seen

/-! ## Helper lemmas -/

theorem lookupA_insertA_self {β : Type} (m : List (String × β)) (d : String) (v : β) :
    lookupA (insertA m d v) d = some v := by
  induction m with
  | nil => simp [insertA, lookupA]
  | cons p rest ih =>
    obtain ⟨k, v0⟩ := p
    by_cases h : k = d <;> simp [insertA, lookupA, h, ih]

theorem lookupA_removeA_self {β : Type} (m : List (String × β)) (d : String) :
    lookupA (removeA m d) d = none := by
  induction m with
  | nil => simp [removeA, lookupA]
  | cons p rest ih =>
    obtain ⟨k, v0⟩ := p
    by_cases h : k = d <;> simp [removeA, lookupA, h, ih]

theorem nginxAdd_availD (fs : FS) (v : VHost) (content : String) :
    (nginxAdd fs v content).availD = insertA fs.availD v.Domain (Entry.file content) := by
  unfold nginxAdd
  split <;> simp
  split <;> simp

theorem nginxAdd_enabledD (fs : FS) (v : VHost) (content : String) :
    (nginxAdd fs v content).enabledD = fs.enabledD := by
  unfold nginxAdd
  split <;> simp
  split <;> simp

theorem isPrefixL_append_of (n m x : List Char) (h : isPrefixL n m = true) :
    isPrefixL n (m ++ x) = true := by
  induction n generalizing m with
  | nil => simp [isPrefixL]
  | cons a as ih =>
    cases m with
    | nil => simp [isPrefixL] at h
    | cons b bs =>
      simp [isPrefixL] at h ⊢
      exact ⟨h.1, ih bs h.2⟩

theorem containsSub_of_startSeg (n h : List Char) (hp : isPrefixL n h = true) :
    containsSub n h = true := by
  cases h with
  | nil => simpa [containsSub] using hp
  | cons c rest => simp [containsSub, hp]

theorem mkVHost_Domain (d : String) (o : AddOpts) (p : String) (now : Nat) :
    (mkVHost d o p now).Domain = d := by
  unfold mkVHost; dsimp only; split <;> rfl

theorem mkVHost_Typ (d : String) (o : AddOpts) (p : String) (now : Nat) :
    (mkVHost d o p now).Typ = o.vhostType := by
  unfold mkVHost; dsimp only; split <;> rfl

theorem mkVHost_Root (d : String) (o : AddOpts) (p : String) (now : Nat) :
    (mkVHost d o p now).Root = o.vhostRoot := by
  unfold mkVHost; dsimp only; split <;> rfl

theorem mkVHost_ProxyPass (d : String) (o : AddOpts) (p : String) (now : Nat) :
    (mkVHost d o p now).ProxyPass = o.proxyPass := by
  unfold mkVHost; dsimp only; split <;> rfl

theorem splitOnC_ne_nil (sep : Char) (l : List Char) : splitOnC sep l ≠ [] := by
  cases l with
  | nil => simp [splitOnC]
  | cons c rest =>
    unfold splitOnC
    rcases splitOnC sep rest with _ | ⟨g, gs⟩ <;> by_cases hc : c = sep <;> simp [hc]

theorem validateDomain_none_facts (d : String) (h : validateDomain d = none) :
    d.toList.isEmpty = false ∧
    d.toList.length ≤ 253 ∧
    containsPathTraversal d.toList = false ∧
    containsShellMetaChars d.toList = false ∧
    containsNullByte d.toList = false ∧
    isValidDomainFormat d.toList = true := by
  simp only [validateDomain] at h
  split_ifs at h <;> simp_all [maxDomainLength]

theorem domainPatternMatch_head (c : Char) (rest : List Char)
    (h : domainPatternMatch (c :: rest) = true) : c ≠ '.' := by
  intro hc
  subst hc
  unfold domainPatternMatch splitOnC at h
  rcases hsp : splitOnC '.' rest with _ | ⟨g, gs⟩ <;> rw [hsp] at h <;> simp [labelOK] at h

theorem validateDomain_not_hidden (d : String) (h : validateDomain d = none) :
    hiddenName d = false := by
  obtain ⟨hne, _, _, _, _, hfmt⟩ := validateDomain_none_facts d h
  unfold isValidDomainFormat at hfmt
  rcases hl : d.toList with _ | ⟨c, rest⟩
  · rw [hl] at hne; simp at hne
  · rw [hl] at hfmt
    simp only [Bool.and_eq_true] at hfmt
    have hne2 := domainPatternMatch_head c rest hfmt.2
    have hl2 : d.data = c :: rest := hl
    simp [hiddenName, String.toList, hl2, hne2]

theorem mem_nginxList_insert (m en : List (String × Entry)) (dirs : List String)
    (d c : String) (h : hiddenName d = false) :
    d ∈ nginxList ⟨insertA m d (Entry.file c), en, dirs⟩ := by
  unfold nginxList
  induction m with
  | nil => simp [insertA, h]
  | cons p rest ih =>
    obtain ⟨k, v⟩ := p
    by_cases hk : k = d
    · subst hk
      simp [insertA, h]
    · simp only [insertA, if_neg hk, List.filter]
      split <;> simp_all

/-! ## Claim C2 -/

/-- C2. During the Add workflow, if the driver's Test fails after the
config file was written and the activation link created, the rollback
first calls Disable and then Remove (the link is removed before the
file, as the trace shows), the registry is left unchanged, the error
message contains "configuration test failed", and afterwards neither the
config file nor the activation link for the domain remains. -/
theorem C2_add_test_failure_rollback (d content : String) (o : AddOpts) (now : Nat)
    (reg : Registry) (fs : FS) (e : Exec)
    (h1 : validateDomain d = none) (h2 : IsValidType o.vhostType = true)
    (h3 : validateAddOptions o = none) (h4 : lookupA reg.vhosts d = none)
    (h6 : lookupA fs.enabledD d = none) (h7 : e.testOk = false) :
    (runAdd d o false true (fun _ => RenderRes.ok content) now reg fs e).reg = reg ∧
    (runAdd d o false true (fun _ => RenderRes.ok content) now reg fs e).tr =
      [Ev.add d, Ev.enable d, Ev.test false, Ev.disable d, Ev.remove d] ∧
    (runAdd d o false true (fun _ => RenderRes.ok content) now reg fs e).err =
      some ("configuration test failed: " ++ ("nginx config test failed: " ++ e.testOut)) ∧
    containsSub "configuration test failed".toList
      (("configuration test failed: " ++ ("nginx config test failed: " ++ e.testOut)).toList)
      = true ∧
    lookupA (runAdd d o false true (fun _ => RenderRes.ok content) now reg fs e).fs.availD d
      = none ∧
    lookupA (runAdd d o false true (fun _ => RenderRes.ok content) now reg fs e).fs.enabledD d
      = none := by
  have hsub : containsSub "configuration test failed".toList
      (("configuration test failed: " ++ ("nginx config test failed: " ++ e.testOut)).toList)
      = true := by
    have hc : ("configuration test failed: " ++ ("nginx config test failed: " ++ e.testOut)).toList
        = "configuration test failed: ".toList
          ++ ("nginx config test failed: " ++ e.testOut).toList := by
      simp [String.toList]
    rw [hc]
    exact containsSub_of_startSeg _ _ (isPrefixL_append_of _ _ _ (by decide))
  have hAv : (nginxAdd fs (mkVHost d o reg.defaultPHP now) content).availD
      = insertA fs.availD d (Entry.file content) := by
    rw [nginxAdd_availD, mkVHost_Domain]
  have hEnb : (nginxAdd fs (mkVHost d o reg.defaultPHP now) content).enabledD
      = fs.enabledD := nginxAdd_enabledD fs _ content
  have hEn : nginxEnable (nginxAdd fs (mkVHost d o reg.defaultPHP now) content) d
      = ({ nginxAdd fs (mkVHost d o reg.defaultPHP now) content with
            enabledD := insertA fs.enabledD d (Entry.symlink d) }, none) := by
    unfold nginxEnable
    rw [hAv, lookupA_insertA_self, hEnb, h6]
    simp [hAv]
  have hT : nginxTest e = some ("nginx config test failed: " ++ e.testOut) := by
    simp [nginxTest, h7]
  simp only [runAdd, h1, h2, Bool.not_true, Bool.false_eq_true, if_false, h3, h4,
    hEn, testAndReload, hT]
  simp [nginxDisable, nginxRemove, nginxIsEnabled, hAv, hEnb,
    lookupA_insertA_self, lookupA_removeA_self]
  simpa using hsub

/-- Witness for C2 at a concrete input: adding `example.com` (static,
root `/srv/www/example`) over an empty state with a failing `nginx -t`. -/
theorem C2_add_test_failure_rollback_witness :
    (runAdd "example.com" ⟨"static", "/srv/www/example", "", "", false, false⟩ false true
      (fun _ => RenderRes.ok "CONF") 0 ⟨"8.2", []⟩ ⟨[], [], []⟩
      ⟨false, "BOOM", true, "", true, ""⟩).reg = ⟨"8.2", []⟩ ∧
    (runAdd "example.com" ⟨"static", "/srv/www/example", "", "", false, false⟩ false true
      (fun _ => RenderRes.ok "CONF") 0 ⟨"8.2", []⟩ ⟨[], [], []⟩
      ⟨false, "BOOM", true, "", true, ""⟩).tr =
      [Ev.add "example.com", Ev.enable "example.com", Ev.test false,
        Ev.disable "example.com", Ev.remove "example.com"] ∧
    (runAdd "example.com" ⟨"static", "/srv/www/example", "", "", false, false⟩ false true
      (fun _ => RenderRes.ok "CONF") 0 ⟨"8.2", []⟩ ⟨[], [], []⟩
      ⟨false, "BOOM", true, "", true, ""⟩).err =
      some ("configuration test failed: " ++ ("nginx config test failed: " ++ "BOOM")) ∧
    containsSub "configuration test failed".toList
      (("configuration test failed: " ++ ("nginx config test failed: " ++ "BOOM")).toList)
      = true ∧
    lookupA (runAdd "example.com" ⟨"static", "/srv/www/example", "", "", false, false⟩ false true
      (fun _ => RenderRes.ok "CONF") 0 ⟨"8.2", []⟩ ⟨[], [], []⟩
      ⟨false, "BOOM", true, "", true, ""⟩).fs.availD "example.com" = none ∧
    lookupA (runAdd "example.com" ⟨"static", "/srv/www/example", "", "", false, false⟩ false true
      (fun _ => RenderRes.ok "CONF") 0 ⟨"8.2", []⟩ ⟨[], [], []⟩
      ⟨false, "BOOM", true, "", true, ""⟩).fs.enabledD "example.com" = none :=
  C2_add_test_failure_rollback "example.com" "CONF"
    ⟨"static", "/srv/www/example", "", "", false, false⟩ 0 ⟨"8.2", []⟩ ⟨[], [], []⟩
    ⟨false, "BOOM", true, "", true, ""⟩
    (by decide) (by decide) (by decide) (by decide) (by decide) (by decide)

/-! ## Claim C6 -/

/-- C6. During the Add workflow, if Test succeeds but Reload fails, no
rollback is performed: the trace shows neither a Disable nor a Remove
call, the config file and the activation link remain on disk exactly as
written, the registry is unchanged, and the workflow reports an error. -/
theorem C6_add_reload_failure_no_rollback (d content : String) (o : AddOpts) (now : Nat)
    (reg : Registry) (fs : FS) (e : Exec)
    (h1 : validateDomain d = none) (h2 : IsValidType o.vhostType = true)
    (h3 : validateAddOptions o = none) (h4 : lookupA reg.vhosts d = none)
    (h6 : lookupA fs.enabledD d = none) (h7 : e.testOk = true)
    (h8 : e.systemctlOk = false) (h9 : e.nginxSOk = false) (h10 : o.noReload = false) :
    (runAdd d o false true (fun _ => RenderRes.ok content) now reg fs e).reg = reg ∧
    (runAdd d o false true (fun _ => RenderRes.ok content) now reg fs e).tr =
      [Ev.add d, Ev.enable d, Ev.test true, Ev.reload] ∧
    (runAdd d o false true (fun _ => RenderRes.ok content) now reg fs e).err =
      some ("failed to reload nginx: " ++ ("failed to reload nginx: " ++ e.nginxSOut)) ∧
    lookupA (runAdd d o false true (fun _ => RenderRes.ok content) now reg fs e).fs.availD d
      = some (Entry.file content) ∧
    lookupA (runAdd d o false true (fun _ => RenderRes.ok content) now reg fs e).fs.enabledD d
      = some (Entry.symlink d) := by
  have hAv : (nginxAdd fs (mkVHost d o reg.defaultPHP now) content).availD
      = insertA fs.availD d (Entry.file content) := by
    rw [nginxAdd_availD, mkVHost_Domain]
  have hEnb : (nginxAdd fs (mkVHost d o reg.defaultPHP now) content).enabledD
      = fs.enabledD := nginxAdd_enabledD fs _ content
  have hEn : nginxEnable (nginxAdd fs (mkVHost d o reg.defaultPHP now) content) d
      = ({ nginxAdd fs (mkVHost d o reg.defaultPHP now) content with
            enabledD := insertA fs.enabledD d (Entry.symlink d) }, none) := by
    unfold nginxEnable
    rw [hAv, lookupA_insertA_self, hEnb, h6]
    simp [hAv]
  have hT : nginxTest e = none := by simp [nginxTest, h7]
  have hR : (nginxReload e).2 = some ("failed to reload nginx: " ++ e.nginxSOut) := by
    simp [nginxReload, h8, h9]
  simp only [runAdd, h1, h2, Bool.not_true, Bool.false_eq_true, if_false, h3, h4,
    hEn, testAndReload, hT, h10, hR]
  simp [hAv, hEnb, lookupA_insertA_self]

/-- Witness for C6 at a concrete input: adding `example.com` with a
passing `nginx -t` and both reload commands failing. -/
theorem C6_add_reload_failure_no_rollback_witness :
    (runAdd "example.com" ⟨"static", "/srv/www/example", "", "", false, false⟩ false true
      (fun _ => RenderRes.ok "CONF") 0 ⟨"8.2", []⟩ ⟨[], [], []⟩
      ⟨true, "", false, "PRIMARY", false, "FALLBACK"⟩).reg = ⟨"8.2", []⟩ ∧
    (runAdd "example.com" ⟨"static", "/srv/www/example", "", "", false, false⟩ false true
      (fun _ => RenderRes.ok "CONF") 0 ⟨"8.2", []⟩ ⟨[], [], []⟩
      ⟨true, "", false, "PRIMARY", false, "FALLBACK"⟩).tr =
      [Ev.add "example.com", Ev.enable "example.com", Ev.test true, Ev.reload] ∧
    (runAdd "example.com" ⟨"static", "/srv/www/example", "", "", false, false⟩ false true
      (fun _ => RenderRes.ok "CONF") 0 ⟨"8.2", []⟩ ⟨[], [], []⟩
      ⟨true, "", false, "PRIMARY", false, "FALLBACK"⟩).err =
      some ("failed to reload nginx: " ++ ("failed to reload nginx: " ++ "FALLBACK")) ∧
    lookupA (runAdd "example.com" ⟨"static", "/srv/www/example", "", "", false, false⟩ false
      true (fun _ => RenderRes.ok "CONF") 0 ⟨"8.2", []⟩ ⟨[], [], []⟩
      ⟨true, "", false, "PRIMARY", false, "FALLBACK"⟩).fs.availD "example.com"
      = some (Entry.file "CONF") ∧
    lookupA (runAdd "example.com" ⟨"static", "/srv/www/example", "", "", false, false⟩ false
      true (fun _ => RenderRes.ok "CONF") 0 ⟨"8.2", []⟩ ⟨[], [], []⟩
      ⟨true, "", false, "PRIMARY", false, "FALLBACK"⟩).fs.enabledD "example.com"
      = some (Entry.symlink "example.com") :=
  C6_add_reload_failure_no_rollback "example.com" "CONF"
    ⟨"static", "/srv/www/example", "", "", false, false⟩ 0 ⟨"8.2", []⟩ ⟨[], [], []⟩
    ⟨true, "", false, "PRIMARY", false, "FALLBACK"⟩
    (by decide) (by decide) (by decide) (by decide) (by decide) (by decide)
    (by decide) (by decide) (by decide)

/-! ## Claim C7 -/

/-- C7. For every valid domain/kind/rootOrProxy combination, after a
successful Add workflow the file under `sites-available` named by the
domain holds exactly the renderer's output, `IsEnabled` returns true,
`List` includes the domain, and the registry holds the created record. -/
theorem C7_add_success_postconditions (d content : String) (o : AddOpts) (now : Nat)
    (reg : Registry) (fs : FS) (e : Exec)
    (h1 : validateDomain d = none) (h2 : IsValidType o.vhostType = true)
    (h3 : validateAddOptions o = none) (h4 : lookupA reg.vhosts d = none)
    (h6 : lookupA fs.enabledD d = none) (h7 : e.testOk = true)
    (h8 : e.systemctlOk = true) :
    (runAdd d o false true (fun _ => RenderRes.ok content) now reg fs e).err = none ∧
    lookupA (runAdd d o false true (fun _ => RenderRes.ok content) now reg fs e).fs.availD d
      = some (Entry.file content) ∧
    nginxIsEnabled (runAdd d o false true (fun _ => RenderRes.ok content) now reg fs e).fs d
      = true ∧
    d ∈ nginxList (runAdd d o false true (fun _ => RenderRes.ok content) now reg fs e).fs ∧
    lookupA (runAdd d o false true (fun _ => RenderRes.ok content) now reg fs e).reg.vhosts d
      = some (mkVHost d o reg.defaultPHP now) := by
  have hAv : (nginxAdd fs (mkVHost d o reg.defaultPHP now) content).availD
      = insertA fs.availD d (Entry.file content) := by
    rw [nginxAdd_availD, mkVHost_Domain]
  have hEnb : (nginxAdd fs (mkVHost d o reg.defaultPHP now) content).enabledD
      = fs.enabledD := nginxAdd_enabledD fs _ content
  have hEn : nginxEnable (nginxAdd fs (mkVHost d o reg.defaultPHP now) content) d
      = ({ nginxAdd fs (mkVHost d o reg.defaultPHP now) content with
            enabledD := insertA fs.enabledD d (Entry.symlink d) }, none) := by
    unfold nginxEnable
    rw [hAv, lookupA_insertA_self, hEnb, h6]
    simp [hAv]
  have hT : nginxTest e = none := by simp [nginxTest, h7]
  have hR : (nginxReload e).2 = none := by simp [nginxReload, h8]
  have hHid : hiddenName d = false := validateDomain_not_hidden d h1
  simp only [runAdd, h1, h2, Bool.not_true, Bool.false_eq_true, if_false, h3, h4,
    hEn, testAndReload, hT, hR]
  cases hnr : o.noReload <;>
    simp [hnr, hAv, hEnb, lookupA_insertA_self, nginxIsEnabled] <;>
    exact mem_nginxList_insert _ _ _ d content hHid

/-- Witness for C7 at a concrete input: adding `example.com` (static)
over an empty state with passing test and reload. -/
theorem C7_add_success_postconditions_witness :
    (runAdd "example.com" ⟨"static", "/srv/www/example", "", "", false, false⟩ false true
      (fun _ => RenderRes.ok "CONF") 0 ⟨"8.2", []⟩ ⟨[], [], []⟩
      ⟨true, "", true, "", true, ""⟩).err = none ∧
    lookupA (runAdd "example.com" ⟨"static", "/srv/www/example", "", "", false, false⟩ false
      true (fun _ => RenderRes.ok "CONF") 0 ⟨"8.2", []⟩ ⟨[], [], []⟩
      ⟨true, "", true, "", true, ""⟩).fs.availD "example.com" = some (Entry.file "CONF") ∧
    nginxIsEnabled (runAdd "example.com" ⟨"static", "/srv/www/example", "", "", false, false⟩
      false true (fun _ => RenderRes.ok "CONF") 0 ⟨"8.2", []⟩ ⟨[], [], []⟩
      ⟨true, "", true, "", true, ""⟩).fs "example.com" = true ∧
    "example.com" ∈ nginxList (runAdd "example.com"
      ⟨"static", "/srv/www/example", "", "", false, false⟩ false true
      (fun _ => RenderRes.ok "CONF") 0 ⟨"8.2", []⟩ ⟨[], [], []⟩
      ⟨true, "", true, "", true, ""⟩).fs ∧
    lookupA (runAdd "example.com" ⟨"static", "/srv/www/example", "", "", false, false⟩ false
      true (fun _ => RenderRes.ok "CONF") 0 ⟨"8.2", []⟩ ⟨[], [], []⟩
      ⟨true, "", true, "", true, ""⟩).reg.vhosts "example.com"
      = some (mkVHost "example.com" ⟨"static", "/srv/www/example", "", "", false, false⟩
          "8.2" 0) :=
  C7_add_success_postconditions "example.com" "CONF"
    ⟨"static", "/srv/www/example", "", "", false, false⟩ 0 ⟨"8.2", []⟩ ⟨[], [], []⟩
    ⟨true, "", true, "", true, ""⟩
    (by decide) (by decide) (by decide) (by decide) (by decide) (by decide) (by decide)

theorem testAndReload_none_rollback_fs (e : Exec) (rl : Bool) (fs : FS) :
    (testAndReload e rl none fs).1 = fs := by
  unfold testAndReload
  rcases h : nginxTest e with _ | m
  · simp only [h]
    by_cases hr : rl
    · simp only [hr, if_true]
      rcases h2 : (nginxReload e).2 with _ | m2 <;> simp [h2]
    · simp [hr]
  · simp [h]

/-! ## Claim C5 -/

/-- C5. If the path at the activation location exists but is a regular
file rather than a symbolic link, `Disable` returns the integrity error
(`is not a symlink, refusing to remove`) and deletes nothing: the driver
state is returned unchanged, and the disable workflow likewise aborts
with that error, leaving filesystem and registry untouched. -/
theorem C5_disable_refuses_regular_file (fs : FS) (d c : String)
    (h : lookupA fs.enabledD d = some (Entry.file c)) :
    nginxDisable fs d
      = (fs, some ("vhost " ++ d ++ " is not a symlink, refusing to remove")) ∧
    (∀ (noReload : Bool) (reg : Registry) (e : Exec),
      validateDomain d = none →
      runDisable d noReload false true reg fs e =
        ⟨fs, reg, [Ev.disable d],
          some ("failed to disable vhost: "
            ++ ("vhost " ++ d ++ " is not a symlink, refusing to remove"))⟩) := by
  have hdis : nginxDisable fs d
      = (fs, some ("vhost " ++ d ++ " is not a symlink, refusing to remove")) := by
    unfold nginxDisable
    rw [h]
  refine ⟨hdis, ?_⟩
  intro noReload reg e h1
  simp only [runDisable, h1, hdis, Bool.not_true, Bool.false_eq_true, if_false]

/-- Witness for C5 at a concrete input: a regular file occupies
`sites-enabled/example.com`. -/
theorem C5_disable_refuses_regular_file_witness :
    nginxDisable ⟨[], [("example.com", Entry.file "X")], []⟩ "example.com"
      = (⟨[], [("example.com", Entry.file "X")], []⟩,
         some ("vhost " ++ "example.com" ++ " is not a symlink, refusing to remove")) ∧
    runDisable "example.com" false false true ⟨"8.2", []⟩
        ⟨[], [("example.com", Entry.file "X")], []⟩ ⟨true, "", true, "", true, ""⟩ =
      ⟨⟨[], [("example.com", Entry.file "X")], []⟩, ⟨"8.2", []⟩, [Ev.disable "example.com"],
        some ("failed to disable vhost: "
          ++ ("vhost " ++ "example.com" ++ " is not a symlink, refusing to remove"))⟩ := by
  have h := C5_disable_refuses_regular_file ⟨[], [("example.com", Entry.file "X")], []⟩
    "example.com" "X" (by decide)
  exact ⟨h.1, h.2 false ⟨"8.2", []⟩ ⟨true, "", true, "", true, ""⟩ (by decide)⟩

/-! ## Claim C9 -/

/-- C9. Once deactivation (Disable workflow) or deletion (Remove workflow
with force) has succeeded, any test/reload outcome — including failure —
leaves the workflow reporting overall success: the symlink stays removed
(and for Remove the file stays deleted), nothing is reverted, and the
registry update (Enabled set to false, resp. the entry deleted) still
takes place.  Quantified over an arbitrary executor oracle `e`, so it
covers failing `nginx -t` and failing reloads. -/
theorem C9_disable_remove_best_effort :
    (∀ (d t : String) (noReload : Bool) (reg : Registry) (fs : FS) (e : Exec),
      validateDomain d = none →
      lookupA fs.enabledD d = some (Entry.symlink t) →
      (runDisable d noReload false true reg fs e).err = none ∧
      lookupA (runDisable d noReload false true reg fs e).fs.enabledD d = none ∧
      (∀ v, lookupA reg.vhosts d = some v →
        lookupA (runDisable d noReload false true reg fs e).reg.vhosts d
          = some { v with Enabled := false }) ∧
      (lookupA reg.vhosts d = none →
        (runDisable d noReload false true reg fs e).reg = reg)) ∧
    (∀ (d t : String) (entry : Entry) (noReload confirmYes : Bool) (reg : Registry)
      (fs : FS) (e : Exec),
      validateDomain d = none →
      lookupA fs.availD d = some entry →
      lookupA fs.enabledD d = some (Entry.symlink t) →
      (runRemove d noReload true confirmYes true reg fs e).err = none ∧
      lookupA (runRemove d noReload true confirmYes true reg fs e).fs.availD d = none ∧
      lookupA (runRemove d noReload true confirmYes true reg fs e).fs.enabledD d = none ∧
      lookupA (runRemove d noReload true confirmYes true reg fs e).reg.vhosts d = none) := by
  constructor
  · intro d t noReload reg fs e h1 h2
    have hdis : nginxDisable fs d = ({ fs with enabledD := removeA fs.enabledD d }, none) := by
      unfold nginxDisable
      rw [h2]
    simp only [runDisable, h1, hdis, Bool.not_true, Bool.false_eq_true, if_false]
    rcases htr : testAndReload e (!noReload) none { fs with enabledD := removeA fs.enabledD d }
      with ⟨fs2, tr, er⟩
    have hfs2 : fs2 = { fs with enabledD := removeA fs.enabledD d } := by
      have := testAndReload_none_rollback_fs e (!noReload)
        { fs with enabledD := removeA fs.enabledD d }
      rw [htr] at this
      exact this
    rcases hreg : lookupA reg.vhosts d with _ | v <;>
      simp [hreg, hfs2, lookupA_removeA_self, lookupA_insertA_self]
  · intro d t entry noReload confirmYes reg fs e h1 hA h2
    have hdis : nginxDisable fs d = ({ fs with enabledD := removeA fs.enabledD d }, none) := by
      unfold nginxDisable
      rw [h2]
    have hrem : nginxRemove fs d =
        ({ fs with enabledD := removeA fs.enabledD d,
                   availD := removeA fs.availD d }, none) := by
      unfold nginxRemove nginxIsEnabled
      rw [h2]
      simp only [Option.isSome_some, if_true, hdis]
      have : lookupA (FS.mk fs.availD (removeA fs.enabledD d) fs.dirs).availD d
          = some entry := hA
      rw [this]
    simp only [runRemove, h1, Bool.not_true, Bool.false_eq_true, if_false,
      Bool.false_and, hrem]
    rcases htr : testAndReload e (!noReload) none
        { fs with enabledD := removeA fs.enabledD d, availD := removeA fs.availD d }
      with ⟨fs2, tr, er⟩
    have hfs2 : fs2 = { fs with enabledD := removeA fs.enabledD d,
                                availD := removeA fs.availD d } := by
      have := testAndReload_none_rollback_fs e (!noReload)
        { fs with enabledD := removeA fs.enabledD d, availD := removeA fs.availD d }
      rw [htr] at this
      exact this
    simp [hfs2, lookupA_removeA_self]

/-- Witness for C9 at concrete inputs: disabling `example.com` (tracked,
enabled) and force-removing `example.com` while both reload commands
fail. -/
theorem C9_disable_remove_best_effort_witness :
    ((runDisable "example.com" false false true
        ⟨"8.2", [("example.com", ⟨"example.com", "static", "/srv/w", "", "", false, "", "",
          true, 0⟩)]⟩
        ⟨[("example.com", Entry.file "C")],
         [("example.com", Entry.symlink "example.com")], []⟩
        ⟨true, "", false, "P", false, "F"⟩).err = none ∧
      lookupA (runDisable "example.com" false false true
        ⟨"8.2", [("example.com", ⟨"example.com", "static", "/srv/w", "", "", false, "", "",
          true, 0⟩)]⟩
        ⟨[("example.com", Entry.file "C")],
         [("example.com", Entry.symlink "example.com")], []⟩
        ⟨true, "", false, "P", false, "F"⟩).fs.enabledD "example.com" = none ∧
      lookupA (runDisable "example.com" false false true
        ⟨"8.2", [("example.com", ⟨"example.com", "static", "/srv/w", "", "", false, "", "",
          true, 0⟩)]⟩
        ⟨[("example.com", Entry.file "C")],
         [("example.com", Entry.symlink "example.com")], []⟩
        ⟨true, "", false, "P", false, "F"⟩).reg.vhosts "example.com"
        = some ⟨"example.com", "static", "/srv/w", "", "", false, "", "", false, 0⟩) ∧
    ((runRemove "example.com" false true false true ⟨"8.2",
        [("example.com", ⟨"example.com", "static", "/srv/w", "", "", false, "", "",
          true, 0⟩)]⟩
        ⟨[("example.com", Entry.file "C")],
         [("example.com", Entry.symlink "example.com")], []⟩
        ⟨true, "", false, "P", false, "F"⟩).err = none ∧
      lookupA (runRemove "example.com" false true false true ⟨"8.2",
        [("example.com", ⟨"example.com", "static", "/srv/w", "", "", false, "", "",
          true, 0⟩)]⟩
        ⟨[("example.com", Entry.file "C")],
         [("example.com", Entry.symlink "example.com")], []⟩
        ⟨true, "", false, "P", false, "F"⟩).fs.availD "example.com" = none ∧
      lookupA (runRemove "example.com" false true false true ⟨"8.2",
        [("example.com", ⟨"example.com", "static", "/srv/w", "", "", false, "", "",
          true, 0⟩)]⟩
        ⟨[("example.com", Entry.file "C")],
         [("example.com", Entry.symlink "example.com")], []⟩
        ⟨true, "", false, "P", false, "F"⟩).fs.enabledD "example.com" = none ∧
      lookupA (runRemove "example.com" false true false true ⟨"8.2",
        [("example.com", ⟨"example.com", "static", "/srv/w", "", "", false, "", "",
          true, 0⟩)]⟩
        ⟨[("example.com", Entry.file "C")],
         [("example.com", Entry.symlink "example.com")], []⟩
        ⟨true, "", false, "P", false, "F"⟩).reg.vhosts "example.com" = none) := by
  have hA := C9_disable_remove_best_effort.1 "example.com" "example.com" false
    ⟨"8.2", [("example.com", ⟨"example.com", "static", "/srv/w", "", "", false, "", "",
      true, 0⟩)]⟩
    ⟨[("example.com", Entry.file "C")],
     [("example.com", Entry.symlink "example.com")], []⟩
    ⟨true, "", false, "P", false, "F"⟩ (by decide) (by decide)
  have hB := C9_disable_remove_best_effort.2 "example.com" "example.com"
    (Entry.file "C") false false
    ⟨"8.2", [("example.com", ⟨"example.com", "static", "/srv/w", "", "", false, "", "",
      true, 0⟩)]⟩
    ⟨[("example.com", Entry.file "C")],
     [("example.com", Entry.symlink "example.com")], []⟩
    ⟨true, "", false, "P", false, "F"⟩ (by decide) (by decide) (by decide)
  exact ⟨⟨hA.1, hA.2.1,
    hA.2.2.1 ⟨"example.com", "static", "/srv/w", "", "", false, "", "", true, 0⟩ (by decide)⟩,
    hB.1, hB.2.1, hB.2.2.1, hB.2.2.2⟩

/-! ## Claim C1 -/

/-- The events recorded by a workflow rollback closure (empty when no
rollback is installed). -/
def rbEvents (rb : Option (FS → FS × List Ev)) (fs : FS) : List Ev :=
  match rb with
  | none => []
  | some g => (g fs).2

theorem testAndReload_tr (e : Exec) (rl : Bool) (rb : Option (FS → FS × List Ev)) (fs : FS) :
    (testAndReload e rl rb fs).2.1 =
      if e.testOk then (if rl then [Ev.test true, Ev.reload] else [Ev.test true])
      else Ev.test false :: rbEvents rb fs := by
  unfold testAndReload nginxTest
  by_cases hT : e.testOk
  · simp only [hT, if_true]
    by_cases hr : rl
    · simp only [hr, if_true]
      rcases h2 : (nginxReload e).2 with _ | m2 <;> simp [h2]
    · simp [hr]
  · simp only [hT, if_false]
    rcases rb with _ | f <;> simp [rbEvents]

/-- Driver-call events that are neither `test` nor `reload`. -/
def plainEv : Ev → Bool
  | Ev.test _ => false
  | Ev.reload => false
  | _ => true

theorem reloadGuarded_plain_pre :
    ∀ (pre tr : List Ev) (b : Bool), pre.all plainEv = true →
      reloadGuarded (pre ++ tr) b = reloadGuarded tr b := by
  intro pre
  induction pre with
  | nil => intro tr b _; rfl
  | cons v rest ih =>
    intro tr b h
    simp only [List.all_cons, Bool.and_eq_true] at h
    cases v with
    | test ok => simp [plainEv] at h
    | reload => simp [plainEv] at h
    | add d => exact ih tr b h.2
    | enable d => exact ih tr b h.2
    | disable d => exact ih tr b h.2
    | remove d => exact ih tr b h.2

theorem reloadGuarded_plain :
    ∀ (l : List Ev) (b : Bool), l.all plainEv = true → reloadGuarded l b = true := by
  intro l
  induction l with
  | nil => intro b _; rfl
  | cons v rest ih =>
    intro b h
    simp only [List.all_cons, Bool.and_eq_true] at h
    cases v with
    | test ok => simp [plainEv] at h
    | reload => simp [plainEv] at h
    | add d => exact ih b h.2
    | enable d => exact ih b h.2
    | disable d => exact ih b h.2
    | remove d => exact ih b h.2

theorem reload_not_mem_plain (l : List Ev) (h : l.all plainEv = true) :
    Ev.reload ∉ l := by
  intro hm
  have := List.all_eq_true.mp h _ hm
  simp [plainEv] at this

theorem tAr_guarded (e : Exec) (rl : Bool) (rb : Option (FS → FS × List Ev)) (fs : FS)
    (hrb : (rbEvents rb fs).all plainEv = true) :
    reloadGuarded (testAndReload e rl rb fs).2.1 false = true ∧
    (e.testOk = false → Ev.reload ∉ (testAndReload e rl rb fs).2.1) := by
  rw [testAndReload_tr]
  by_cases hT : e.testOk
  · refine ⟨?_, ?_⟩
    · simp only [hT, if_true]
      by_cases hr : rl <;> simp [hr, reloadGuarded]
    · intro h
      rw [h] at hT
      simp at hT
  · simp only [hT, if_false]
    refine ⟨?_, ?_⟩
    · have : reloadGuarded (rbEvents rb fs) false = true :=
        reloadGuarded_plain _ _ hrb
      simpa [reloadGuarded] using this
    · intro _
      have := reload_not_mem_plain _ hrb
      simp [this]

/-- C1. In every lifecycle workflow (add, enable, disable, remove), every
Reload call in the driver-call trace is preceded by a Test call that
returned success, and when the backend's Test fails no Reload call occurs
at all. -/
theorem C1_validate_before_reload :
    (∀ (d : String) (o : AddOpts) (dry isR : Bool) (render : VHost → RenderRes)
      (now : Nat) (reg : Registry) (fs : FS) (e : Exec),
      reloadGuarded (runAdd d o dry isR render now reg fs e).tr false = true ∧
      (e.testOk = false → Ev.reload ∉ (runAdd d o dry isR render now reg fs e).tr)) ∧
    (∀ (d : String) (noReload dry isR : Bool) (reg : Registry) (fs : FS) (e : Exec),
      reloadGuarded (runEnable d noReload dry isR reg fs e).tr false = true ∧
      (e.testOk = false → Ev.reload ∉ (runEnable d noReload dry isR reg fs e).tr)) ∧
    (∀ (d : String) (noReload dry isR : Bool) (reg : Registry) (fs : FS) (e : Exec),
      reloadGuarded (runDisable d noReload dry isR reg fs e).tr false = true ∧
      (e.testOk = false → Ev.reload ∉ (runDisable d noReload dry isR reg fs e).tr)) ∧
    (∀ (d : String) (noReload force confirmYes isR : Bool) (reg : Registry) (fs : FS)
      (e : Exec),
      reloadGuarded (runRemove d noReload force confirmYes isR reg fs e).tr false = true ∧
      (e.testOk = false →
        Ev.reload ∉ (runRemove d noReload force confirmYes isR reg fs e).tr)) := by
  refine ⟨?_, ?_, ?_, ?_⟩
  · intro d o dry isR render now reg fs e
    unfold runAdd
    rcases validateDomain d with _ | m
    · by_cases h2 : IsValidType o.vhostType <;> simp only [h2, Bool.not_true, Bool.not_false,
        Bool.false_eq_true, if_false, if_true]
      · rcases validateAddOptions o with _ | m3
        · rcases lookupA reg.vhosts d with _ | v
          · rcases render (mkVHost d o reg.defaultPHP now) with content | m4
            · by_cases hd : dry <;> simp only [hd, if_true, if_false]
              · exact ⟨rfl, by intro _; simp⟩
              · by_cases hr : isR <;> simp only [hr, Bool.not_true, Bool.not_false,
                  Bool.false_eq_true, if_false, if_true]
                · rcases nginxEnable (nginxAdd fs (mkVHost d o reg.defaultPHP now) content) d
                    with ⟨fs2, _ | m5⟩
                  · dsimp only
                    rcases hTR : testAndReload e (!o.noReload)
                        (some (fun f =>
                          ((nginxRemove (nginxDisable f d).1 d).1,
                           [Ev.disable d, Ev.remove d]))) fs2
                      with ⟨fs3, tr, _ | m6⟩ <;>
                    · have htr := congrArg (fun p => p.2.1) hTR
                      simp only at htr
                      have hg := tAr_guarded e (!o.noReload)
                        (some (fun f =>
                          ((nginxRemove (nginxDisable f d).1 d).1,
                           [Ev.disable d, Ev.remove d]))) fs2 (by simp [rbEvents, plainEv])
                      rw [htr] at hg
                      have hpre : reloadGuarded (Ev.add d :: Ev.enable d :: tr) false
                          = reloadGuarded tr false :=
                        reloadGuarded_plain_pre [Ev.add d, Ev.enable d] tr false
                          (by simp [plainEv])
                      refine ⟨?_, ?_⟩
                      · simpa [hpre] using hg.1
                      · intro hT
                        have hnm := hg.2 hT
                        simp [hnm]
                  · exact ⟨rfl, by intro _; simp⟩
                · exact ⟨rfl, by intro _; simp⟩
            · exact ⟨rfl, by intro _; simp⟩
          · exact ⟨rfl, by intro _; simp⟩
        · exact ⟨rfl, by intro _; simp⟩
      · exact ⟨rfl, by intro _; simp⟩
    · exact ⟨rfl, by intro _; simp⟩
  · intro d noReload dry isR reg fs e
    unfold runEnable
    rcases validateDomain d with _ | m
    · by_cases hd : dry <;> simp only [hd, if_true, if_false]
      · exact ⟨rfl, by intro _; simp⟩
      · by_cases hr : isR <;> simp only [hr, Bool.not_true, Bool.not_false,
          Bool.false_eq_true, if_false, if_true]
        · rcases nginxEnable fs d with ⟨fs1, _ | m5⟩
          · dsimp only
            rcases hTR : testAndReload e (!noReload)
                (some (fun f => ((nginxDisable f d).1, [Ev.disable d]))) fs1
              with ⟨fs2, tr, _ | m6⟩ <;>
            · have htr := congrArg (fun p => p.2.1) hTR
              simp only at htr
              have hg := tAr_guarded e (!noReload)
                (some (fun f => ((nginxDisable f d).1, [Ev.disable d]))) fs1
                (by simp [rbEvents, plainEv])
              rw [htr] at hg
              have hpre : reloadGuarded (Ev.enable d :: tr) false = reloadGuarded tr false :=
                reloadGuarded_plain_pre [Ev.enable d] tr false (by simp [plainEv])
              rcases lookupA reg.vhosts d with _ | v <;>
              · refine ⟨?_, ?_⟩
                · simpa [hpre] using hg.1
                · intro hT
                  have hnm := hg.2 hT
                  simp [hnm]
          · exact ⟨rfl, by intro _; simp⟩
        · exact ⟨rfl, by intro _; simp⟩
    · exact ⟨rfl, by intro _; simp⟩
  · intro d noReload dry isR reg fs e
    unfold runDisable
    rcases validateDomain d with _ | m
    · by_cases hd : dry <;> simp only [hd, if_true, if_false]
      · exact ⟨rfl, by intro _; simp⟩
      · by_cases hr : isR <;> simp only [hr, Bool.not_true, Bool.not_false,
          Bool.false_eq_true, if_false, if_true]
        · rcases nginxDisable fs d with ⟨fs1, _ | m5⟩
          · dsimp only
            rcases hTR : testAndReload e (!noReload) none fs1 with ⟨fs2, tr, er⟩
            have htr := congrArg (fun p => p.2.1) hTR
            simp only at htr
            have hg := tAr_guarded e (!noReload) none fs1 (by simp [rbEvents])
            rw [htr] at hg
            have hpre : reloadGuarded (Ev.disable d :: tr) false = reloadGuarded tr false :=
              reloadGuarded_plain_pre [Ev.disable d] tr false (by simp [plainEv])
            rcases lookupA reg.vhosts d with _ | v <;>
            · refine ⟨?_, ?_⟩
              · simpa [hpre] using hg.1
              · intro hT
                have hnm := hg.2 hT
                simp [hnm]
          · exact ⟨rfl, by intro _; simp⟩
        · exact ⟨rfl, by intro _; simp⟩
    · exact ⟨rfl, by intro _; simp⟩
  · intro d noReload force confirmYes isR reg fs e
    unfold runRemove
    rcases validateDomain d with _ | m
    · by_cases hr : isR <;> simp only [hr, Bool.not_true, Bool.not_false,
        Bool.false_eq_true, if_false, if_true]
      · by_cases hfc : (!force && !confirmYes) = true <;>
          simp only [hfc, if_true, if_false]
        · exact ⟨rfl, by intro _; simp⟩
        · simp only [Bool.false_eq_true, if_false]
          rcases nginxRemove fs d with ⟨fs1, _ | m5⟩
          · dsimp only
            rcases hTR : testAndReload e (!noReload) none fs1 with ⟨fs2, tr, er⟩
            have htr := congrArg (fun p => p.2.1) hTR
            simp only at htr
            have hg := tAr_guarded e (!noReload) none fs1 (by simp [rbEvents])
            rw [htr] at hg
            have hpre : reloadGuarded (Ev.remove d :: tr) false = reloadGuarded tr false :=
              reloadGuarded_plain_pre [Ev.remove d] tr false (by simp [plainEv])
            refine ⟨?_, ?_⟩
            · simpa [hpre] using hg.1
            · intro hT
              have hnm := hg.2 hT
              simp [hnm]
          · exact ⟨rfl, by intro _; simp⟩
      · exact ⟨rfl, by intro _; simp⟩
    · exact ⟨rfl, by intro _; simp⟩

/-- Witness for C1 at concrete inputs: all four workflows run against a
failing `nginx -t`, producing traces that are reload-guarded and
reload-free. -/
theorem C1_validate_before_reload_witness :
    reloadGuarded (runAdd "example.com" ⟨"static", "/srv/w", "", "", false, false⟩ false true
      (fun _ => RenderRes.ok "C") 0 ⟨"8.2", []⟩ ⟨[], [], []⟩
      ⟨false, "B", true, "", true, ""⟩).tr false = true ∧
    Ev.reload ∉ (runAdd "example.com" ⟨"static", "/srv/w", "", "", false, false⟩ false true
      (fun _ => RenderRes.ok "C") 0 ⟨"8.2", []⟩ ⟨[], [], []⟩
      ⟨false, "B", true, "", true, ""⟩).tr ∧
    reloadGuarded (runEnable "example.com" false false true ⟨"8.2", []⟩
      ⟨[("example.com", Entry.file "C")], [], []⟩
      ⟨false, "B", true, "", true, ""⟩).tr false = true ∧
    Ev.reload ∉ (runEnable "example.com" false false true ⟨"8.2", []⟩
      ⟨[("example.com", Entry.file "C")], [], []⟩
      ⟨false, "B", true, "", true, ""⟩).tr ∧
    reloadGuarded (runDisable "example.com" false false true ⟨"8.2", []⟩
      ⟨[("example.com", Entry.file "C")], [("example.com", Entry.symlink "example.com")], []⟩
      ⟨false, "B", true, "", true, ""⟩).tr false = true ∧
    Ev.reload ∉ (runDisable "example.com" false false true ⟨"8.2", []⟩
      ⟨[("example.com", Entry.file "C")], [("example.com", Entry.symlink "example.com")], []⟩
      ⟨false, "B", true, "", true, ""⟩).tr ∧
    reloadGuarded (runRemove "example.com" false true false true ⟨"8.2", []⟩
      ⟨[("example.com", Entry.file "C")], [], []⟩
      ⟨false, "B", true, "", true, ""⟩).tr false = true ∧
    Ev.reload ∉ (runRemove "example.com" false true false true ⟨"8.2", []⟩
      ⟨[("example.com", Entry.file "C")], [], []⟩
      ⟨false, "B", true, "", true, ""⟩).tr :=
  ⟨(C1_validate_before_reload.1 "example.com" ⟨"static", "/srv/w", "", "", false, false⟩
      false true (fun _ => RenderRes.ok "C") 0 ⟨"8.2", []⟩ ⟨[], [], []⟩
      ⟨false, "B", true, "", true, ""⟩).1,
   (C1_validate_before_reload.1 "example.com" ⟨"static", "/srv/w", "", "", false, false⟩
      false true (fun _ => RenderRes.ok "C") 0 ⟨"8.2", []⟩ ⟨[], [], []⟩
      ⟨false, "B", true, "", true, ""⟩).2 (by decide),
   (C1_validate_before_reload.2.1 "example.com" false false true ⟨"8.2", []⟩
      ⟨[("example.com", Entry.file "C")], [], []⟩ ⟨false, "B", true, "", true, ""⟩).1,
   (C1_validate_before_reload.2.1 "example.com" false false true ⟨"8.2", []⟩
      ⟨[("example.com", Entry.file "C")], [], []⟩ ⟨false, "B", true, "", true, ""⟩).2
      (by decide),
   (C1_validate_before_reload.2.2.1 "example.com" false false true ⟨"8.2", []⟩
      ⟨[("example.com", Entry.file "C")], [("example.com", Entry.symlink "example.com")], []⟩
      ⟨false, "B", true, "", true, ""⟩).1,
   (C1_validate_before_reload.2.2.1 "example.com" false false true ⟨"8.2", []⟩
      ⟨[("example.com", Entry.file "C")], [("example.com", Entry.symlink "example.com")], []⟩
      ⟨false, "B", true, "", true, ""⟩).2 (by decide),
   (C1_validate_before_reload.2.2.2 "example.com" false true false true ⟨"8.2", []⟩
      ⟨[("example.com", Entry.file "C")], [], []⟩ ⟨false, "B", true, "", true, ""⟩).1,
   (C1_validate_before_reload.2.2.2 "example.com" false true false true ⟨"8.2", []⟩
      ⟨[("example.com", Entry.file "C")], [], []⟩ ⟨false, "B", true, "", true, ""⟩).2
      (by decide)⟩

/-! ## Claim C3 -/

/-- Counterexample to C3 as stated: `pre.example.com` already has a
config file (content `OLD`) in `sites-available` but is not tracked in
the registry; the Add workflow nevertheless succeeds and overwrites the
file with the freshly rendered `NEW` — an `already exists` failure
happens only for registry-tracked domains, and the filesystem is
mutated. -/
theorem C3_counterexample_untracked_file_overwritten :
    (runAdd "pre.example.com" ⟨"static", "/srv/x", "", "", false, false⟩ false true
      (fun _ => RenderRes.ok "NEW") 0 ⟨"8.2", []⟩
      ⟨[("pre.example.com", Entry.file "OLD")], [], []⟩
      ⟨true, "", true, "", true, ""⟩).err = none ∧
    lookupA (runAdd "pre.example.com" ⟨"static", "/srv/x", "", "", false, false⟩ false true
      (fun _ => RenderRes.ok "NEW") 0 ⟨"8.2", []⟩
      ⟨[("pre.example.com", Entry.file "OLD")], [], []⟩
      ⟨true, "", true, "", true, ""⟩).fs.availD "pre.example.com"
      = some (Entry.file "NEW") := by
  constructor <;> rfl

/-- C3 (amended). The duplicate check of the Add workflow consults the
registry, not the filesystem: for every domain already tracked in the
registry, Add fails with the `already exists` error and performs no
mutation at all (filesystem, registry and trace untouched); a config
file present in `sites-available` for an untracked domain is silently
overwritten instead. -/
theorem C3_add_rejects_tracked_domain (d : String) (o : AddOpts) (v : VHost)
    (dry isR : Bool) (render : VHost → RenderRes) (now : Nat) (reg : Registry)
    (fs : FS) (e : Exec)
    (h1 : validateDomain d = none) (h2 : IsValidType o.vhostType = true)
    (h3 : validateAddOptions o = none) (h4 : lookupA reg.vhosts d = some v) :
    runAdd d o dry isR render now reg fs e =
      ⟨fs, reg, [], some ("vhost " ++ d ++ " already exists")⟩ := by
  simp only [runAdd, h1, h2, Bool.not_true, Bool.false_eq_true, if_false, h3, h4]

/-- Witness for the amended C3: `existing.com` is tracked in the
registry, so Add aborts with `already exists` and mutates nothing. -/
theorem C3_add_rejects_tracked_domain_witness :
    runAdd "existing.com" ⟨"static", "/srv/x", "", "", false, false⟩ false true
      (fun _ => RenderRes.ok "NEW") 0
      ⟨"8.2", [("existing.com", ⟨"existing.com", "static", "/srv/x", "", "", false, "", "",
        true, 0⟩)]⟩
      ⟨[("existing.com", Entry.file "OLD")], [], []⟩ ⟨true, "", true, "", true, ""⟩ =
      ⟨⟨[("existing.com", Entry.file "OLD")], [], []⟩,
       ⟨"8.2", [("existing.com", ⟨"existing.com", "static", "/srv/x", "", "", false, "", "",
         true, 0⟩)]⟩,
       [], some ("vhost " ++ "existing.com" ++ " already exists")⟩ :=
  C3_add_rejects_tracked_domain "existing.com" ⟨"static", "/srv/x", "", "", false, false⟩
    ⟨"existing.com", "static", "/srv/x", "", "", false, "", "", true, 0⟩ false true
    (fun _ => RenderRes.ok "NEW") 0
    ⟨"8.2", [("existing.com", ⟨"existing.com", "static", "/srv/x", "", "", false, "", "",
      true, 0⟩)]⟩
    ⟨[("existing.com", Entry.file "OLD")], [], []⟩ ⟨true, "", true, "", true, ""⟩
    (by decide) (by decide) (by decide) (by decide)

/-! ## Claim C4 -/

/-- Counterexample to C4 as stated: when both reload commands fail, the
surfaced error message is built from the `output` variable after it was
overwritten by the fallback attempt, so it carries only the fallback's
raw output (`FALLBACK`) and not the primary attempt's (`PRIMARY`). -/
theorem C4_counterexample_primary_output_dropped :
    nginxReload ⟨true, "", false, "PRIMARY", false, "FALLBACK"⟩
      = ([RCmd.systemctlReload, RCmd.nginxSReload],
         some ("failed to reload nginx: " ++ "FALLBACK")) ∧
    containsSub "PRIMARY".toList
      ("failed to reload nginx: " ++ "FALLBACK").toList = false ∧
    containsSub "FALLBACK".toList
      ("failed to reload nginx: " ++ "FALLBACK").toList = true := by
  refine ⟨rfl, by decide, by decide⟩

/-- C4 (amended). Reload first attempts the service-manager command and
only on its failure attempts exactly one backend-specific fallback; when
both fail, the surfaced error carries the raw tool output of the
fallback attempt only (the primary attempt's output is overwritten and
discarded). -/
theorem C4_reload_primary_then_fallback (e : Exec) :
    (e.systemctlOk = true → nginxReload e = ([RCmd.systemctlReload], none)) ∧
    (e.systemctlOk = false →
      (nginxReload e).1 = [RCmd.systemctlReload, RCmd.nginxSReload] ∧
      (e.nginxSOk = true → (nginxReload e).2 = none) ∧
      (e.nginxSOk = false →
        (nginxReload e).2 = some ("failed to reload nginx: " ++ e.nginxSOut))) := by
  by_cases h1 : e.systemctlOk <;> by_cases h2 : e.nginxSOk <;>
    simp [nginxReload, h1, h2]

/-- Witness for the amended C4 at a concrete input with both commands
failing. -/
theorem C4_reload_primary_then_fallback_witness :
    (nginxReload ⟨true, "", false, "PRIMARY", false, "FALLBACK"⟩).1
      = [RCmd.systemctlReload, RCmd.nginxSReload] ∧
    (nginxReload ⟨true, "", false, "PRIMARY", false, "FALLBACK"⟩).2
      = some ("failed to reload nginx: " ++ "FALLBACK") := by
  have h := (C4_reload_primary_then_fallback
    ⟨true, "", false, "PRIMARY", false, "FALLBACK"⟩).2 (by decide)
  exact ⟨h.1, h.2.2 (by decide)⟩

/-! ## Claim C8 -/

theorem runAdd_success_shape (d : String) (o : AddOpts) (isR : Bool)
    (render : VHost → RenderRes) (now : Nat) (reg : Registry) (fs : FS) (e : Exec)
    (h : (runAdd d o false isR render now reg fs e).err = none) :
    (runAdd d o false isR render now reg fs e).reg.vhosts
      = insertA reg.vhosts d (mkVHost d o reg.defaultPHP now) ∧
    validateAddOptions o = none := by
  unfold runAdd at h ⊢
  repeat' split at h
  all_goals simp_all

/-- Counterexample to C8 as stated: `vhost add legacy.example.com --type
proxy --proxy http://127.0.0.1:3000 --root /var/www/legacy` is accepted
(`validateAddOptions` never forbids `--root` for the proxy type), and the
created registry record is a reverse-proxy vhost carrying a non-empty
`Root`. -/
theorem C8_counterexample_proxy_with_root :
    (runAdd "legacy.example.com"
      ⟨"proxy", "/var/www/legacy", "http://127.0.0.1:3000", "", false, false⟩ false true
      (fun _ => RenderRes.ok "C") 0 ⟨"8.2", []⟩ ⟨[], [], []⟩
      ⟨true, "", true, "", true, ""⟩).err = none ∧
    lookupA (runAdd "legacy.example.com"
      ⟨"proxy", "/var/www/legacy", "http://127.0.0.1:3000", "", false, false⟩ false true
      (fun _ => RenderRes.ok "C") 0 ⟨"8.2", []⟩ ⟨[], [], []⟩
      ⟨true, "", true, "", true, ""⟩).reg.vhosts "legacy.example.com"
      = some ⟨"legacy.example.com", "proxy", "/var/www/legacy", "http://127.0.0.1:3000",
              "", false, "", "", true, 0⟩ ∧
    ("/var/www/legacy" : String) ≠ "" := by
  refine ⟨rfl, rfl, by decide⟩

/-- C8 (amended). An accepted Add guarantees presence, not exclusivity:
every vhost record created by a successful (non-dry-run) Add has a
non-empty `ProxyPass` when its kind is proxy and a non-empty `Root` when
its kind is any other valid kind; however a proxy vhost may additionally
carry a `Root` (and a non-proxy vhost a `ProxyPass`) when those flags are
supplied, since `validateAddOptions` imposes no exclusivity. -/
theorem C8_accepted_add_field_presence (d : String) (o : AddOpts) (isR : Bool)
    (render : VHost → RenderRes) (now : Nat) (reg : Registry) (fs : FS) (e : Exec)
    (hsucc : (runAdd d o false isR render now reg fs e).err = none)
    (v : VHost)
    (hv : lookupA (runAdd d o false isR render now reg fs e).reg.vhosts d = some v) :
    (v.Typ = "proxy" → v.ProxyPass ≠ "") ∧
    ((v.Typ = "static" ∨ v.Typ = "php" ∨ v.Typ = "laravel" ∨ v.Typ = "wordpress") →
      v.Root ≠ "") := by
  obtain ⟨hreg, hopts⟩ := runAdd_success_shape d o isR render now reg fs e hsucc
  rw [hreg, lookupA_insertA_self] at hv
  have hv2 : v = mkVHost d o reg.defaultPHP now := (Option.some.inj hv).symm
  subst hv2
  rw [mkVHost_Typ, mkVHost_ProxyPass, mkVHost_Root]
  unfold validateAddOptions at hopts
  constructor
  · intro ht hp
    rw [ht, hp] at hopts
    simp at hopts
  · intro ht hp
    rcases ht with ht | ht | ht | ht <;> rw [ht, hp] at hopts <;> simp at hopts

/-- Witness for the amended C8: a successful proxy Add has a non-empty
proxy target. -/
theorem C8_accepted_add_field_presence_witness :
    (⟨"legacy.example.com", "proxy", "/var/www/legacy", "http://127.0.0.1:3000",
       "", false, "", "", true, 0⟩ : VHost).ProxyPass ≠ "" :=
  (C8_accepted_add_field_presence "legacy.example.com"
    ⟨"proxy", "/var/www/legacy", "http://127.0.0.1:3000", "", false, false⟩ true
    (fun _ => RenderRes.ok "C") 0 ⟨"8.2", []⟩ ⟨[], [], []⟩
    ⟨true, "", true, "", true, ""⟩ (by decide)
    ⟨"legacy.example.com", "proxy", "/var/www/legacy", "http://127.0.0.1:3000",
     "", false, "", "", true, 0⟩ (by decide)).1 (by decide)

/-! ## Claim C10 -/

theorem mem_splitOnC (sep : Char) : ∀ (l : List Char) (c : Char), c ∈ l →
    c = sep ∨ ∃ g, g ∈ splitOnC sep l ∧ c ∈ g := by
  intro l
  induction l with
  | nil => intro c hc; simp at hc
  | cons a rest ih =>
    intro c hc
    obtain ⟨g0, gs0, hsp⟩ : ∃ g0 gs0, splitOnC sep rest = g0 :: gs0 := by
      rcases hq : splitOnC sep rest with _ | ⟨g0, gs0⟩
      · exact absurd hq (splitOnC_ne_nil sep rest)
      · exact ⟨g0, gs0, rfl⟩
    rcases List.mem_cons.mp hc with rfl | hmem
    · by_cases ha : c = sep
      · exact Or.inl ha
      · refine Or.inr ⟨c :: g0, ?_, by simp⟩
        simp [splitOnC, hsp, ha]
    · rcases ih c hmem with h | ⟨g, hg, hcg⟩
      · exact Or.inl h
      · rw [hsp] at hg
        by_cases ha : a = sep
        · refine Or.inr ⟨g, ?_, hcg⟩
          simp only [splitOnC, hsp, ha, if_true, List.mem_cons]
          exact Or.inr (by simpa using hg)
        · rcases List.mem_cons.mp hg with rfl | hgs
          · refine Or.inr ⟨a :: g, ?_, by simp [hcg]⟩
            simp [splitOnC, hsp, ha]
          · refine Or.inr ⟨g, ?_, hcg⟩
            simp [splitOnC, hsp, ha, hgs]

theorem labelTail_chars : ∀ (l : List Char), labelTail l = true →
    ∀ c ∈ l, isAlnumA c = true ∨ c = '-' := by
  intro l
  induction l with
  | nil => intro _ c hc; simp at hc
  | cons a rest ih =>
    intro h c hc
    cases rest with
    | nil =>
      simp only [labelTail] at h
      rcases List.mem_cons.mp hc with rfl | hc2
      · exact Or.inl h
      · simp at hc2
    | cons b rest2 =>
      simp only [labelTail, Bool.and_eq_true, Bool.or_eq_true] at h
      rcases List.mem_cons.mp hc with rfl | hc2
      · rcases h.1 with h1 | h1
        · exact Or.inl h1
        · exact Or.inr (by simpa using h1)
      · exact ih h.2 c hc2

theorem labelOK_chars (l : List Char) (h : labelOK l = true) :
    ∀ c ∈ l, isAlnumA c = true ∨ c = '-' := by
  cases l with
  | nil => intro c hc; simp at hc
  | cons a rest =>
    cases rest with
    | nil =>
      simp only [labelOK] at h
      intro c hc
      rcases List.mem_cons.mp hc with rfl | hc2
      · exact Or.inl h
      · simp at hc2
    | cons b rest2 =>
      simp only [labelOK, Bool.and_eq_true] at h
      intro c hc
      rcases List.mem_cons.mp hc with rfl | hc2
      · exact Or.inl h.1.1
      · exact labelTail_chars _ h.2 c hc2

theorem validateDomain_chars (d : String) (h : validateDomain d = none) :
    ∀ c ∈ d.toList, isAlnumA c = true ∨ c = '-' ∨ c = '.' := by
  obtain ⟨_, _, _, _, _, hfmt⟩ := validateDomain_none_facts d h
  have hpat : domainPatternMatch d.toList = true := by
    unfold isValidDomainFormat at hfmt
    simp only [Bool.and_eq_true] at hfmt
    exact hfmt.2
  intro c hc
  rcases mem_splitOnC '.' d.toList c hc with rfl | ⟨g, hg, hcg⟩
  · exact Or.inr (Or.inr rfl)
  · have hok : labelOK g = true := List.all_eq_true.mp hpat g hg
    rcases labelOK_chars g hok c hcg with h1 | h1
    · exact Or.inl h1
    · exact Or.inr (Or.inl h1)

theorem splitOnC_noSep (sep : Char) : ∀ (l : List Char), (∀ c ∈ l, c ≠ sep) →
    splitOnC sep l = [l] := by
  intro l
  induction l with
  | nil => intro _; rfl
  | cons a rest ih =>
    intro h
    have ha : a ≠ sep := h a (by simp)
    have hrest := ih (fun c hc => h c (by simp [hc]))
    simp [splitOnC, hrest, ha]

theorem splitOnC_append_sep (sep : Char) : ∀ (xs ys : List Char),
    (∀ c ∈ ys, c ≠ sep) →
    splitOnC sep (xs ++ sep :: ys) = splitOnC sep xs ++ [ys] := by
  intro xs
  induction xs with
  | nil =>
    intro ys h
    have hys := splitOnC_noSep sep ys h
    simp [splitOnC, hys]
  | cons x xs' ih =>
    intro ys h
    have hih := ih ys h
    obtain ⟨g0, gs0, hsp⟩ : ∃ g0 gs0, splitOnC sep xs' = g0 :: gs0 := by
      rcases hq : splitOnC sep xs' with _ | ⟨g0, gs0⟩
      · exact absurd hq (splitOnC_ne_nil sep xs')
      · exact ⟨g0, gs0, rfl⟩
    rw [hsp] at hih
    by_cases hx : x = sep
    · simp [splitOnC, List.cons_append, hih, hsp, hx]
    · simp [splitOnC, List.cons_append, hih, hsp, hx]

/-- C10. Every domain accepted by `validateDomain` is non-empty, at most
253 characters, made only of ASCII letters, digits, hyphens and dots,
splits on dots into valid RFC 1035 labels, contains no path separator,
no backslash, no null byte, no shell metacharacter and no traversal
sequence, is neither `.` nor `..`, and joining the `sites-available`
directory with the domain adds exactly one new path component under that
directory; and every lifecycle workflow, given a domain that
`validateDomain` rejects, returns the validation error untouched with no
driver call and no state change. -/
theorem C10_validateDomain_path_safety :
    (∀ d : String, validateDomain d = none →
      d ≠ "" ∧
      d.toList.length ≤ 253 ∧
      (∀ c ∈ d.toList, isAlnumA c = true ∨ c = '-' ∨ c = '.') ∧
      (splitOnC '.' d.toList).all labelOK = true ∧
      '/' ∉ d.toList ∧
      '\\' ∉ d.toList ∧
      Char.ofNat 0 ∉ d.toList ∧
      (∀ c ∈ shellMetaChars, c ∉ d.toList) ∧
      containsPathTraversal d.toList = false ∧
      d.toList ≠ ['.'] ∧ d.toList ≠ ['.', '.'] ∧
      (∀ avail : List Char,
        splitOnC '/' (avail ++ '/' :: d.toList) = splitOnC '/' avail ++ [d.toList])) ∧
    (∀ (d m : String), validateDomain d = some m →
      (∀ (o : AddOpts) (dry isR : Bool) (render : VHost → RenderRes) (now : Nat)
        (reg : Registry) (fs : FS) (e : Exec),
        runAdd d o dry isR render now reg fs e = ⟨fs, reg, [], some m⟩) ∧
      (∀ (noReload dry isR : Bool) (reg : Registry) (fs : FS) (e : Exec),
        runEnable d noReload dry isR reg fs e = ⟨fs, reg, [], some m⟩ ∧
        runDisable d noReload dry isR reg fs e = ⟨fs, reg, [], some m⟩) ∧
      (∀ (noReload force confirmYes isR : Bool) (reg : Registry) (fs : FS) (e : Exec),
        runRemove d noReload force confirmYes isR reg fs e = ⟨fs, reg, [], some m⟩)) := by
  constructor
  · intro d h
    obtain ⟨hne, hlen, htrav, hshell, hnull, hfmt⟩ := validateDomain_none_facts d h
    have hchars := validateDomain_chars d h
    have hpat : domainPatternMatch d.toList = true := by
      unfold isValidDomainFormat at hfmt
      simp only [Bool.and_eq_true] at hfmt
      exact hfmt.2
    have hslash : '/' ∉ d.toList := by
      intro hm
      rcases hchars '/' hm with h1 | h1 | h1 <;> simp [isAlnumA] at h1
    refine ⟨?_, hlen, hchars, ?_, hslash, ?_, ?_, ?_, htrav, ?_, ?_, ?_⟩
    · intro hd
      rw [hd] at hne
      simp at hne
    · unfold domainPatternMatch at hpat
      exact hpat
    · intro hm
      rcases hchars '\\' hm with h1 | h1 | h1 <;> simp [isAlnumA] at h1
    · intro hm
      rcases hchars (Char.ofNat 0) hm with h1 | h1 | h1 <;> simp [isAlnumA] at h1
    · intro c hcm hm
      rcases hchars c hm with h1 | h1 | h1 <;>
      · fin_cases hcm <;> simp_all [isAlnumA]
    · intro hd
      rw [hd] at hpat
      exact absurd hpat (by decide)
    · intro hd
      rw [hd] at hpat
      exact absurd hpat (by decide)
    · intro avail
      exact splitOnC_append_sep '/' avail d.toList (fun c hc hcs => hslash (hcs ▸ hc))
  · intro d m h
    refine ⟨?_, ?_, ?_⟩
    · intro o dry isR render now reg fs e
      simp only [runAdd, h]
    · intro noReload dry isR reg fs e
      constructor
      · simp only [runEnable, h]
      · simp only [runDisable, h]
    · intro noReload force confirmYes isR reg fs e
      simp only [runRemove, h]

/-- Witness for C10 at concrete inputs: the accepted domain
`example.com` and the rejected domain `../etc` (which makes every
workflow abort untouched). -/
theorem C10_validateDomain_path_safety_witness :
    ("example.com" : String) ≠ "" ∧
    ('/' ∉ ("example.com" : String).toList) ∧
    splitOnC '/' ("/etc/nginx/sites-available".toList ++ '/' :: ("example.com" : String).toList)
      = splitOnC '/' "/etc/nginx/sites-available".toList ++ [("example.com" : String).toList] ∧
    runAdd "../etc" ⟨"static", "/srv/x", "", "", false, false⟩ false true
      (fun _ => RenderRes.ok "C") 0 ⟨"8.2", []⟩ ⟨[], [], []⟩ ⟨true, "", true, "", true, ""⟩
      = ⟨⟨[], [], []⟩, ⟨"8.2", []⟩, [],
          some "domain contains invalid path traversal sequences"⟩ := by
  have hA := (C10_validateDomain_path_safety.1 "example.com" (by decide))
  have hB := (C10_validateDomain_path_safety.2 "../etc"
    "domain contains invalid path traversal sequences" (by decide)).1
    ⟨"static", "/srv/x", "", "", false, false⟩ false true
    (fun _ => RenderRes.ok "C") 0 ⟨"8.2", []⟩ ⟨[], [], []⟩ ⟨true, "", true, "", true, ""⟩
  exact ⟨hA.1, hA.2.2.2.2.1, hA.2.2.2.2.2.2.2.2.2.2.2 "/etc/nginx/sites-available".toList, hB⟩

end Vhost
